import Mathlib

/-!
The Hedera HCS messaging script (hcs_messaging.js)

A model of the script's encryption helpers, of formatTimestamp, of the two
callbacks of the topic subscription and of main, followed by the properties
proved of them. JavaScript strings are lists of UTF-16 code units and Buffers
are lists of octets. What the script takes from outside is a parameter: the
aes-256-gcm cipher of node:crypto (Gcm), the octets of crypto.randomBytes, the
clock, and the answers of the network.
-/

namespace HcsMessaging


/-- One octet of a Node.js Buffer. -/
abbrev Byte := Fin 256

/-- One UTF-16 code unit of a JavaScript string. -/
abbrev CodeUnit := Fin 65536

/-- A Node.js Buffer, as the list of its octets. -/
abbrev Bytes := List Byte

/-- A JavaScript string, as the list of its UTF-16 code units. -/
abbrev JSString := List CodeUnit

/-- The octet with value n modulo 256. -/
def byteOfNat (n : Nat) : Byte := ⟨n % 256, Nat.mod_lt n (by decide)⟩

/-- The code unit with value n modulo 65536. -/
def unitOfNat (n : Nat) : CodeUnit := ⟨n % 65536, Nat.mod_lt n (by decide)⟩

/-- A string literal of the source as a JavaScript string (each character of the
literals used here is a single code unit). -/
def js (s : String) : JSString := s.toList.map (fun c => unitOfNat c.toNat)

/-! ### Hexadecimal text, as Buffer.toString('hex') and Buffer.from(text, 'hex') -/

/-- The lower-case hexadecimal digit of a value below sixteen. -/
def hexDigit (n : Nat) : CodeUnit :=
  if n < 10 then unitOfNat (48 + n) else unitOfNat (87 + n)

/-- The text produced by buf.toString('hex'): two lower-case digits per octet. -/
def hexEncode : Bytes → JSString
  | [] => []
  | b :: rest => hexDigit (b.val / 16) :: hexDigit (b.val % 16) :: hexEncode rest

/-- The value of a hexadecimal digit, in either case, and none for anything else.
Node.js looks only at the low octet of each code unit when it reads hexadecimal
text, so U+0130 is read as the digit 0. -/
def unhex (c : CodeUnit) : Option Nat :=
  let b := c.val % 256
  if 48 ≤ b ∧ b ≤ 57 then some (b - 48)
  else if 97 ≤ b ∧ b ≤ 102 then some (b - 87)
  else if 65 ≤ b ∧ b ≤ 70 then some (b - 55)
  else none

/-- The octets produced by Buffer.from(text, 'hex'): digit pairs are read from the
left, and reading stops at the first pair that is not two hexadecimal digits; a
trailing single character is dropped. -/
def hexDecode : JSString → Bytes
  | a :: b :: rest =>
    match unhex a, unhex b with
    | some x, some y => byteOfNat (x * 16 + y) :: hexDecode rest
    | _, _ => []
  | _ => []

/-! ### UTF-8, as Node.js writes and reads JavaScript strings -/

def isHighSurrogate (u : CodeUnit) : Bool := 0xD800 ≤ u.val && u.val ≤ 0xDBFF
def isLowSurrogate (u : CodeUnit) : Bool := 0xDC00 ≤ u.val && u.val ≤ 0xDFFF
def isSurrogate (u : CodeUnit) : Bool := 0xD800 ≤ u.val && u.val ≤ 0xDFFF

/-- The UTF-8 octets of one code point. -/
def utf8EncodeCodePoint (cp : Nat) : Bytes :=
  if cp < 0x80 then [byteOfNat cp]
  else if cp < 0x800 then [byteOfNat (0xC0 + cp / 64), byteOfNat (0x80 + cp % 64)]
  else if cp < 0x10000 then
    [byteOfNat (0xE0 + cp / 4096), byteOfNat (0x80 + cp / 64 % 64), byteOfNat (0x80 + cp % 64)]
  else
    [byteOfNat (0xF0 + cp / 262144), byteOfNat (0x80 + cp / 4096 % 64),
     byteOfNat (0x80 + cp / 64 % 64), byteOfNat (0x80 + cp % 64)]

/-- The code point a lone code unit is written as: an unpaired surrogate is
replaced by U+FFFD. -/
def loneCodePoint (u : CodeUnit) : Nat := if isSurrogate u then 0xFFFD else u.val

/-- The octets Node.js writes for a string under the 'utf8' encoding: a high
surrogate followed by a low surrogate is one code point, any other surrogate is
written as U+FFFD. -/
def utf8Encode : JSString → Bytes
  | [] => []
  | [u] => utf8EncodeCodePoint (loneCodePoint u)
  | u :: v :: rest =>
    if isHighSurrogate u && isLowSurrogate v then
      utf8EncodeCodePoint (0x10000 + (u.val - 0xD800) * 0x400 + (v.val - 0xDC00))
        ++ utf8Encode rest
    else utf8EncodeCodePoint (loneCodePoint u) ++ utf8Encode (v :: rest)

/-- The code units of one code point. -/
def codeUnitsOf (cp : Nat) : JSString :=
  if cp < 0x10000 then [unitOfNat cp]
  else [unitOfNat (0xD800 + (cp - 0x10000) / 0x400), unitOfNat (0xDC00 + (cp - 0x10000) % 0x400)]

/-- U+FFFD, the replacement character. -/
def replacementUnit : CodeUnit := unitOfNat 0xFFFD

def inRange (lo hi : Nat) (b : Byte) : Bool := lo ≤ b.val && b.val ≤ hi

/-- A multi-octet sequence in progress: the bits collected so far, how many
continuation octets are still expected, and the range allowed for the next one. -/
structure Pending where
  codePoint : Nat
  remaining : Nat
  lower : Nat
  upper : Nat
deriving DecidableEq, Repr

/-- Reading one octet when no sequence is in progress. -/
def utf8Start (b : Byte) : JSString × Option Pending :=
  if b.val < 0x80 then ([unitOfNat b.val], none)
  else if inRange 0xC2 0xDF b then ([], some ⟨b.val - 0xC0, 1, 0x80, 0xBF⟩)
  else if inRange 0xE0 0xEF b then
    ([], some ⟨b.val - 0xE0, 2, if b.val = 0xE0 then 0xA0 else 0x80,
      if b.val = 0xED then 0x9F else 0xBF⟩)
  else if inRange 0xF0 0xF4 b then
    ([], some ⟨b.val - 0xF0, 3, if b.val = 0xF0 then 0x90 else 0x80,
      if b.val = 0xF4 then 0x8F else 0xBF⟩)
  else ([replacementUnit], none)

/-- Reading one octet: a continuation octet in range extends the sequence in
progress and completes it when it was the last one expected; any other octet
ends the sequence with U+FFFD and is then read afresh. -/
def utf8Step (st : Option Pending) (b : Byte) : JSString × Option Pending :=
  match st with
  | none => utf8Start b
  | some p =>
    if inRange p.lower p.upper b then
      let cp := p.codePoint * 64 + (b.val - 0x80)
      if p.remaining ≤ 1 then (codeUnitsOf cp, none)
      else ([], some ⟨cp, p.remaining - 1, 0x80, 0xBF⟩)
    else
      let r := utf8Start b
      (replacementUnit :: r.1, r.2)

/-- The decoder run over the octets from a given state; a sequence still in
progress at the end gives U+FFFD. -/
def utf8DecodeFrom : Option Pending → Bytes → JSString
  | none, [] => []
  | some _, [] => [replacementUnit]
  | st, b :: rest => (utf8Step st b).1 ++ utf8DecodeFrom (utf8Step st b).2 rest

/-- The string Node.js reads from octets under the 'utf8' encoding: well-formed
sequences give their code point, and each maximal ill-formed part gives one
U+FFFD. -/
def utf8Decode (bs : Bytes) : JSString := utf8DecodeFrom none bs

/-- A string without unpaired surrogates (String.prototype.isWellFormed). -/
def isWellFormed : JSString → Bool
  | [] => true
  | [u] => !isSurrogate u
  | u :: v :: rest =>
    if isHighSurrogate u then isLowSurrogate v && isWellFormed rest
    else !isSurrogate u && isWellFormed (v :: rest)

/-! ### The encryption helpers (hcs_messaging.js, lines 40 to 84) -/

def IV_LENGTH : Nat := 16

def AUTH_TAG_LENGTH : Nat := 16

/-- The 'aes-256-gcm' cipher of node:crypto, which the script imports and does
not implement. Both operations take the key and the IV first; none stands for a
thrown exception. -/
structure Gcm where
  /-- createCipheriv, update, final and getAuthTag: the ciphertext and the tag of
  a plaintext. -/
  cipher : Bytes → Bytes → Bytes → Option (Bytes × Bytes)
  /-- createDecipheriv, setAuthTag, update and final, given the tag and the
  ciphertext: the plaintext, or a throw (rejected IV or tag, failed
  authentication). -/
  decipher : Bytes → Bytes → Bytes → Bytes → Option Bytes

/-- What is assumed of the cipher: under a 32-octet key and a 16-octet IV,
encryption succeeds, its tag has 16 octets, and decryption of its output under
the same key and IV, with that tag, gives the plaintext back. -/
def Gcm.Lawful (g : Gcm) : Prop :=
  ∀ key iv pt : Bytes, key.length = 32 → iv.length = IV_LENGTH →
    ∃ ct tag, g.cipher key iv pt = some (ct, tag) ∧ tag.length = AUTH_TAG_LENGTH ∧
      g.decipher key iv tag ct = some pt

/-- The text decrypt returns when anything inside its try block throws. -/
def decryptionFailed : JSString := js "[Decryption Failed: Invalid Key or Data]"

/-- The function encrypt (lines 47 to 60). KEY is the module-level key, iv the
octets crypto.randomBytes(IV_LENGTH) returned. The result is none when a call
throws (encrypt has no try block). What the function returns is given here, and
the console.error line of its invalid-key branch by encryptConsole. -/
def encrypt (g : Gcm) (KEY : Bytes) (iv : Bytes) (text : JSString) : Option JSString :=
  if KEY.length ≠ 32 then some text
  else
    match g.cipher KEY iv (utf8Encode text) with
    | none => none
    | some (encrypted, authTag) => some (hexEncode iv ++ hexEncode authTag ++ hexEncode encrypted)

/-- The method data.subarray(start, stop) of a Buffer, for start ≤ stop. -/
def subarray (data : Bytes) (start stop : Nat) : Bytes := (data.take stop).drop start

/-- Lines 69 to 72 of decrypt: the octets of the hexadecimal text, cut at the
fixed offsets into IV, tag and ciphertext. -/
def splitEnvelope (encryptedText : JSString) : Bytes × Bytes × Bytes :=
  let data := hexDecode encryptedText
  (subarray data 0 IV_LENGTH, subarray data IV_LENGTH (IV_LENGTH + AUTH_TAG_LENGTH),
    data.drop (IV_LENGTH + AUTH_TAG_LENGTH))

/-- The try block of decrypt (lines 69 to 79): none when a call in it throws. -/
def decryptTry (g : Gcm) (KEY : Bytes) (encryptedText : JSString) : Option JSString :=
  let (iv, authTag, encrypted) := splitEnvelope encryptedText
  match g.decipher KEY iv authTag encrypted with
  | none => none
  | some decrypted => some (utf8Decode decrypted)

/-- The function decrypt (lines 63 to 83). Every call that can throw is inside the
try block, whose catch returns the failure text, so the function always returns.
What the function returns is given here, and the console.error line of its
invalid-key branch by decryptConsole. -/
def decrypt (g : Gcm) (KEY : Bytes) (encryptedText : JSString) : JSString :=
  if KEY.length ≠ 32 then encryptedText
  else
    match decryptTry g KEY encryptedText with
    | some decrypted => decrypted
    | none => decryptionFailed

/-- The sum of the octets, modulo 256. -/
def byteSum (bs : Bytes) : Byte := bs.foldr (fun b acc => b + acc) 0

/-- A small cipher with the interface of Gcm that satisfies Gcm.Lawful: every
octet is shifted by a mask drawn from key and IV, and the tag is a checksum
repeated sixteen times. It stands in for the real cipher where a concrete one
is needed. -/
def maskGcm : Gcm where
  cipher key iv pt :=
    if key.length = 32 ∧ iv.length = IV_LENGTH then
      let ct := pt.map (fun b => b + (byteSum key + byteSum iv))
      some (ct, List.replicate AUTH_TAG_LENGTH (byteSum key + byteSum iv + byteSum ct))
    else none
  decipher key iv tag ct :=
    if key.length = 32 ∧ iv.length = IV_LENGTH
        ∧ tag = List.replicate AUTH_TAG_LENGTH (byteSum key + byteSum iv + byteSum ct) then
      some (ct.map (fun b => b - (byteSum key + byteSum iv)))
    else none

/-! ### Dates and formatTimestamp (lines 87 to 97)

A Date is its time value: the milliseconds since 1970-01-01T00:00:00Z. The
calendar arithmetic is that of ECMAScript (Day, TimeWithinDay, DayFromYear,
YearFromTime, MonthFromTime, DateFromTime). -/

def msPerDay : Int := 86400000

/-- The day number of the first day of year y (ECMAScript DayFromYear). -/
def dayFromYear (y : Int) : Int :=
  365 * (y - 1970) + (y - 1969) / 4 - (y - 1901) / 100 + (y - 1601) / 400

/-- The year a day number falls in (ECMAScript YearFromTime): the largest y with
dayFromYear y ≤ d, found from the mean length of a year and one correction. -/
def yearFromDay (d : Int) : Int :=
  let y := 1970 + 400 * d / 146097
  if d < dayFromYear y then y - 1 else if dayFromYear (y + 1) ≤ d then y + 1 else y

def isLeapYear (y : Int) : Bool := y % 4 = 0 && (y % 100 ≠ 0 || y % 400 = 0)

/-- One for a leap year, zero otherwise. -/
def leapDay (leap : Bool) : Int := if leap then 1 else 0

/-- The month, from 0 for January, of a day within the year counted from 0
(ECMAScript MonthFromTime). -/
def monthFromDayInYear (leap : Bool) (d : Int) : Nat :=
  if d < 31 then 0
  else if d < 59 + leapDay leap then 1
  else if d < 90 + leapDay leap then 2
  else if d < 120 + leapDay leap then 3
  else if d < 151 + leapDay leap then 4
  else if d < 181 + leapDay leap then 5
  else if d < 212 + leapDay leap then 6
  else if d < 243 + leapDay leap then 7
  else if d < 273 + leapDay leap then 8
  else if d < 304 + leapDay leap then 9
  else if d < 334 + leapDay leap then 10
  else 11

/-- The day within the year, counted from 0, on which a month (from 0) starts. -/
def monthStart (leap : Bool) (m : Nat) : Int :=
  match m with
  | 0 => 0
  | 1 => 31
  | 2 => 59 + leapDay leap
  | 3 => 90 + leapDay leap
  | 4 => 120 + leapDay leap
  | 5 => 151 + leapDay leap
  | 6 => 181 + leapDay leap
  | 7 => 212 + leapDay leap
  | 8 => 243 + leapDay leap
  | 9 => 273 + leapDay leap
  | 10 => 304 + leapDay leap
  | _ => 334 + leapDay leap

/-- The decimal digits of n in a field of the given width, padded with zeros on the
left (the low digits of n when it does not fit). -/
def digits : Nat → Nat → JSString
  | 0, _ => []
  | w + 1, n => digits w (n / 10) ++ [unitOfNat (48 + n % 10)]

/-- The year of an ISO date string: four digits from 0000 to 9999, otherwise a sign
and six digits. -/
def isoYear (y : Int) : JSString :=
  if 0 ≤ y ∧ y ≤ 9999 then digits 4 y.toNat
  else (if y < 0 then js "-" else js "+") ++ digits 6 y.natAbs

/-- The method Date.prototype.toISOString of a valid Date with time value t. -/
def toISOString (t : Int) : JSString :=
  let day := t / msPerDay
  let ms := t % msPerDay
  let y := yearFromDay day
  let leap := isLeapYear y
  let dayInYear := day - dayFromYear y
  let month := monthFromDayInYear leap dayInYear
  let date := dayInYear - monthStart leap month + 1
  isoYear y ++ js "-" ++ digits 2 (month + 1) ++ js "-" ++ digits 2 date.toNat ++ js "T"
    ++ digits 2 (ms / 3600000).toNat ++ js ":" ++ digits 2 (ms / 60000 % 60).toNat ++ js ":"
    ++ digits 2 (ms / 1000 % 60).toNat ++ js "." ++ digits 3 (ms % 1000).toNat ++ js "Z"

/-- The method s.replace(a, b) for one-character strings a and b: the first
occurrence of a is replaced. -/
def replaceFirst (a b : CodeUnit) : JSString → JSString
  | [] => []
  | c :: s => if c = a then b :: s else c :: replaceFirst a b s

/-- The method s.substring(0, n). -/
def substring0 (s : JSString) (n : Nat) : JSString := s.take n

/-- Whether a number of milliseconds is the time value of a valid Date: at most
8.64e15 either side of the epoch (ECMAScript TimeClip). A Date made of any other
number is an Invalid Date. -/
def isValidTime (t : Int) : Bool := -8640000000000000 ≤ t && t ≤ 8640000000000000

/-- A consensus timestamp of the SDK (the type the comment above formatTimestamp
names), given by the number of milliseconds its toDate() method makes a Date
of. -/
structure Timestamp where
  toDate : Int
deriving DecidableEq

/-- What formatTimestamp is called with in the script: an SDK Timestamp (line
146) or a JavaScript Date (line 183), which has no toDate method. -/
inductive TimeArg where
  | timestamp (t : Timestamp)
  | date (timeValue : Int)

/-- The function formatTimestamp (lines 92 to 97); none when it throws, which it
does at timestamp.toDate() for an argument without that method, and at
date.toISOString() for an Invalid Date. -/
def formatTimestamp : TimeArg → Option JSString
  | .timestamp t =>
    if isValidTime t.toDate then
      some (substring0 (replaceFirst (unitOfNat 84) (unitOfNat 32) (toISOString t.toDate)) 19)
    else none
  | .date _ => none

/-! The civil calendar, stated on its own terms for comparison with the above. -/

/-- The number of days of a month (1 to 12) in the Gregorian calendar, in a leap
year or not. -/
def daysInMonth (leap : Bool) (m : Nat) : Nat :=
  match m with
  | 2 => if leap then 29 else 28
  | 4 => 30
  | 6 => 30
  | 9 => 30
  | 11 => 30
  | _ => 31

/-- The number of days of year y. -/
def daysInYear (y : Nat) : Nat := if isLeapYear y then 366 else 365

/-- The days of the years 0 to y - 1. -/
def daysBeforeYear : Nat → Nat
  | 0 => 0
  | y + 1 => daysBeforeYear y + daysInYear y

/-- The days of the months 1 to m of a year. -/
def daysThroughMonth (leap : Bool) : Nat → Nat
  | 0 => 0
  | m + 1 => daysThroughMonth leap m + daysInMonth leap (m + 1)

/-- The whole seconds from 1970-01-01 00:00:00 UTC to the given calendar date and
time of day; 719528 days separate 0000-01-01 from 1970-01-01. -/
def utcSeconds (year month day hour minute second : Nat) : Int :=
  (((daysBeforeYear year + daysThroughMonth (isLeapYear year) (month - 1) + (day - 1) : Nat)
      : Int) - 719528) * 86400 + (hour * 3600 + minute * 60 + second : Nat)

/-- The text YYYY-MM-DD HH:MM:SS of a calendar date and time of day. -/
def dateTimeText (year month day hour minute second : Nat) : JSString :=
  digits 4 year ++ js "-" ++ digits 2 month ++ js "-" ++ digits 2 day ++ js " "
    ++ digits 2 hour ++ js ":" ++ digits 2 minute ++ js ":" ++ digits 2 second

/-! ### The subscription callbacks of main (lines 135 to 174) -/

/-- The configuration block at the top of the script (lines 21 to 38) and the
module-level key (line 44). -/
structure Config where
  USE_ENCRYPTION : Bool
  FILTER_KEYWORD : JSString
  MESSAGES_TO_SEND : List JSString
  KEY : Bytes

/-- A line written to the console, by its parts. -/
inductive Line where
  /-- The line of a received message (line 160): its number, its text and its
  consensus time. -/
  | received (index : Nat) (text : JSString) (timestamp : JSString)
  /-- The line of a sent message (line 197): its number, its text and the local
  time. -/
  | sent (index : Nat) (text : JSString) (localTime : JSString)
  /-- The line that names the topic created (line 126). -/
  | topicCreated (topicId : Nat)
  /-- Any other console.log line. -/
  | info (text : JSString)
  /-- A console.error line. -/
  | error (text : JSString)
deriving DecidableEq

/-- The console.error line encrypt writes in its invalid-key branch (line 49). -/
def encryptConsole (KEY : Bytes) : List Line :=
  if KEY.length ≠ 32 then
    [Line.error (js "Invalid ENCRYPTION_KEY. Must be a 64-char hex string (32 bytes).")]
  else []

/-- The console.error line decrypt writes in its invalid-key branch (line 65). -/
def decryptConsole (KEY : Bytes) : List Line :=
  if KEY.length ≠ 32 then [Line.error (js "Invalid ENCRYPTION_KEY. Cannot decrypt.")]
  else []

/-- A message delivered by the topic subscription. -/
structure TopicMessage where
  contents : Bytes
  consensusTimestamp : Timestamp
deriving DecidableEq

/-- What the two callbacks read and write: the counter receiveCount, the console,
whether client.close() was called, and the status process.exit was called with. -/
structure Subscriber where
  receiveCount : Nat
  console : List Line
  closed : Bool
  exitCode : Option Nat
deriving DecidableEq

/-- The state when the subscription is opened (line 135). -/
def Subscriber.init : Subscriber := ⟨0, [], false, none⟩

/-- The method text.includes(keyword): keyword occurs in text as a run of
consecutive code units. -/
def includes : JSString → JSString → Bool
  | [], keyword => keyword.isEmpty
  | c :: text, keyword => keyword.isPrefixOf (c :: text) || includes text keyword

/-- The message callback of the subscription (lines 143 to 168), as a step on the
subscriber state; none when the callback throws, which it does at line 146 when
formatTimestamp does. With encryption on, what decrypt writes to the console
comes before the filter. -/
def onMessage (g : Gcm) (cfg : Config) (st : Subscriber) (message : TopicMessage) :
    Option Subscriber :=
  match formatTimestamp (.timestamp message.consensusTimestamp) with
  | none => none
  | some timestamp =>
    let messageContent :=
      if cfg.USE_ENCRYPTION then decrypt g cfg.KEY (utf8Decode message.contents)
      else utf8Decode message.contents
    let console :=
      if cfg.USE_ENCRYPTION then st.console ++ decryptConsole cfg.KEY else st.console
    if !cfg.FILTER_KEYWORD.isEmpty && !includes messageContent cfg.FILTER_KEYWORD then
      some ⟨st.receiveCount, console, st.closed, st.exitCode⟩
    else
      let receiveCount := st.receiveCount + 1
      let console := console ++ [Line.received receiveCount messageContent timestamp]
      if receiveCount = cfg.MESSAGES_TO_SEND.length then
        some ⟨receiveCount,
          console ++ [Line.info (js "\nReceived all messages. Closing connection.")],
          true, some 0⟩
      else some ⟨receiveCount, console, st.closed, st.exitCode⟩

/-- The error callback of the subscription (lines 169 to 173). -/
def onError (st : Subscriber) : Subscriber :=
  ⟨st.receiveCount, st.console ++ [Line.error (js "Error subscribing to topic:")], true, some 1⟩

/-- What the subscription hands to the callbacks: a message, or an error. -/
inductive Inbound where
  | message (m : TopicMessage)
  | error

/-- The callbacks run over what the subscription delivers, in order. Once
process.exit has been called nothing more runs; none when a callback throws. -/
def deliver (g : Gcm) (cfg : Config) : Subscriber → List Inbound → Option Subscriber
  | st, [] => some st
  | st, e :: rest =>
    if st.exitCode.isSome then some st
    else
      match e with
      | .message m =>
        match onMessage g cfg st m with
        | none => none
        | some st1 => deliver g cfg st1 rest
      | .error => deliver g cfg (onError st) rest

/-- The configuration as the script has it (lines 26 to 37), with a given key. -/
def defaultConfig (KEY : Bytes) : Config :=
  ⟨false, js "", [js "Hello, Hedera!", js "Learning HCS", js "Message 3"], KEY⟩

/-- A message with the given text as contents. -/
def textMessage (text : JSString) (consensusTimestamp : Timestamp) : TopicMessage :=
  ⟨utf8Encode text, consensusTimestamp⟩

/-! ### The function main (lines 102 to 211) -/

/-- The two credentials main reads from the environment (lines 106 and 107);
none for a variable that is not set. -/
structure Env where
  HEDERA_ACCOUNT_ID : Option JSString
  HEDERA_PRIVATE_KEY : Option JSString

/-- What the outside world answers while main runs. -/
structure World where
  /-- Whether Client.forTestnet().setOperator(...) returns (true) or throws. -/
  clientOk : Bool
  /-- The topic the network creates (lines 121 to 125); none when a call throws. -/
  topicId : Option Nat
  /-- Whether the submission at loop index i is acknowledged (true) or throws. -/
  submitOk : Nat → Bool
  /-- The time value of the Date that new Date() gives at loop index i. -/
  now : Nat → Int
  /-- The octets crypto.randomBytes gives at loop index i. -/
  iv : Nat → Bytes

/-- What main does, one step at a time, as seen from outside. -/
inductive Action where
  | console (line : Line)
  | createClient (accountId privateKey : JSString)
  | createTopic
  | wait (ms : Nat)
  | subscribe (topicId : Nat)
  | submit (topicId : Nat) (message : JSString)
deriving DecidableEq

/-- An action on the network, as opposed to a console line or a timer. -/
def Action.isNetwork : Action → Bool
  | .console _ => false
  | .wait _ => false
  | _ => true

/-- The value of !x for a variable of the environment: true when it is not set or
is the empty string. -/
def falsy (x : Option JSString) : Bool :=
  match x with
  | none => true
  | some s => s.isEmpty

/-- The loop of lines 181 to 201 from index i on, over the messages still to be
sent: the actions done, and whether the loop ended by a throw. -/
def publishLoop (g : Gcm) (cfg : Config) (w : World) (topicId : Nat) :
    Nat → List JSString → List Action × Bool
  | _, [] => ([], false)
  | i, text :: rest =>
    match formatTimestamp (.date (w.now i)) with
    | none => ([], true)
    | some localTime =>
      let wrote :=
        if cfg.USE_ENCRYPTION then (encryptConsole cfg.KEY).map Action.console else []
      match (if cfg.USE_ENCRYPTION then encrypt g cfg.KEY (w.iv i) text else some text) with
      | none => (wrote, true)
      | some messageToSend =>
        if w.submitOk i then
          let r := publishLoop g cfg w topicId (i + 1) rest
          (wrote ++ Action.submit topicId messageToSend
            :: Action.console (Line.sent (i + 1) text localTime) :: Action.wait 1000 :: r.1, r.2)
        else (wrote ++ [Action.submit topicId messageToSend], true)

/-- The try block of main (lines 118 to 204) with its catch (lines 205 to 207). -/
def mainTry (g : Gcm) (cfg : Config) (w : World) : List Action :=
  [Action.console (Line.info (js "\nCreating a new HCS topic...")), Action.createTopic] ++
  match w.topicId with
  | none => [Action.console (Line.error (js "An error occurred:"))]
  | some topicId =>
    let r := publishLoop g cfg w topicId 0 cfg.MESSAGES_TO_SEND
    [Action.console (Line.topicCreated topicId),
      Action.console (Line.info (js "Waiting 10s for topic to propagate to mirror nodes...")),
      Action.wait 10000,
      Action.console (Line.info (js "\nSubscribing to topic... (Listening for messages)")),
      Action.console (Line.info (js "--- Messages Received: ---")),
      Action.subscribe topicId,
      Action.wait 2000,
      Action.console (Line.info (js "\n--- Messages Sent: ---"))]
    ++ r.1 ++
    [if r.2 then Action.console (Line.error (js "An error occurred:"))
      else Action.console
        (Line.info (js "\nAll messages sent. Waiting for subscriber to receive them..."))]

/-- The function main, apart from the callbacks it registers: the actions it
does, in order. -/
def main (g : Gcm) (cfg : Config) (env : Env) (w : World) : List Action :=
  Action.console (Line.info (js "--- Simple Hedera Messaging Service ---")) ::
  if falsy env.HEDERA_ACCOUNT_ID || falsy env.HEDERA_PRIVATE_KEY then
    [Action.console
      (Line.error (js "HEDERA_ACCOUNT_ID and HEDERA_PRIVATE_KEY must be set in .env file"))]
  else
    Action.createClient (env.HEDERA_ACCOUNT_ID.getD []) (env.HEDERA_PRIVATE_KEY.getD []) ::
    if w.clientOk then mainTry g cfg w else []

/-- The messages the actions submit to the topic, in order. -/
def submitted : List Action → List JSString
  | [] => []
  | .submit _ message :: rest => message :: submitted rest
  | _ :: rest => submitted rest

/-- The lines of sent messages the actions write, in order. -/
def sentLines : List Action → List (Nat × JSString × JSString)
  | [] => []
  | .console (.sent index text localTime) :: rest => (index, text, localTime) :: sentLines rest
  | _ :: rest => sentLines rest

/-- A world in which every call on the network succeeds. -/
def calmWorld : World := ⟨true, some 1, fun _ => true, fun i => 1700000000000 + 1000 * i,
  fun _ => List.replicate 16 0⟩

/-- An environment with both credentials set. -/
def someEnv : Env := ⟨some (js "0.0.1234"), some (js "302e")⟩

/-! ### Predicates used in the statements -/

/-- The decoded text of a delivered message: its contents read as UTF-8, and
decrypted when encryption is on. -/
def decodedText (g : Gcm) (cfg : Config) (m : TopicMessage) : JSString :=
  if cfg.USE_ENCRYPTION then decrypt g cfg.KEY (utf8Decode m.contents) else utf8Decode m.contents

/-- The console once a message has been decoded: with encryption on, decrypt has
written its line when the key is not valid. -/
def consoleDecoded (cfg : Config) (st : Subscriber) : List Line :=
  if cfg.USE_ENCRYPTION then st.console ++ decryptConsole cfg.KEY else st.console

/-- Every message in what is delivered carries a timestamp whose Date is valid. -/
def validTimes (events : List Inbound) : Prop :=
  ∀ m, Inbound.message m ∈ events → isValidTime m.consensusTimestamp.toDate = true

/-- What holds of the subscriber state throughout, for n messages to send: the
counter is at most n, no received line has a number above n, and a counter equal
to n means the client was closed and the script exited with status 0. -/
def Subscriber.Bounded (n : Nat) (st : Subscriber) : Prop :=
  st.receiveCount ≤ n ∧
    (∀ i text ts, Line.received i text ts ∈ st.console → i ≤ n) ∧
    (st.receiveCount = n → st.exitCode = some 0 ∧ st.closed = true)


/-! ### Hexadecimal text and UTF-8 -/

theorem unhex_hexDigit (n : Nat) (h : n < 16) : unhex (hexDigit n) = some n := by
  interval_cases n <;> rfl

theorem byteOfNat_div_mod (b : Byte) : byteOfNat (b.val / 16 * 16 + b.val % 16) = b := by
  apply Fin.ext
  have := b.isLt
  simp only [byteOfNat]
  omega

theorem hexDecode_hexEncode (bs : Bytes) : hexDecode (hexEncode bs) = bs := by
  induction bs with
  | nil => rfl
  | cons b rest ih =>
    have h1 : b.val / 16 < 16 := by have := b.isLt; omega
    have h2 : b.val % 16 < 16 := by omega
    simp only [hexEncode, hexDecode, unhex_hexDigit _ h1, unhex_hexDigit _ h2, ih,
      byteOfNat_div_mod]

theorem hexEncode_append (xs ys : Bytes) : hexEncode (xs ++ ys) = hexEncode xs ++ hexEncode ys := by
  induction xs with
  | nil => rfl
  | cons b rest ih => simp [hexEncode, ih]

theorem hexEncode_length (bs : Bytes) : (hexEncode bs).length = 2 * bs.length := by
  induction bs with
  | nil => rfl
  | cons b rest ih => simp [hexEncode, ih]; omega

@[simp] theorem byteOfNat_val (n : Nat) : (byteOfNat n).val = n % 256 := rfl
@[simp] theorem unitOfNat_val (n : Nat) : (unitOfNat n).val = n % 65536 := rfl

theorem utf8DecodeFrom_cons (st : Option Pending) (b : Byte) (rest : Bytes) :
    utf8DecodeFrom st (b :: rest) = (utf8Step st b).1 ++ utf8DecodeFrom (utf8Step st b).2 rest := by
  cases st <;> rfl

theorem utf8Start_one (b : Byte) (h : b.val < 0x80) :
    utf8Start b = ([unitOfNat b.val], none) := by
  simp [utf8Start, h]

theorem utf8Start_two (b : Byte) (h1 : 0xC2 ≤ b.val) (h2 : b.val ≤ 0xDF) :
    utf8Start b = ([], some ⟨b.val - 0xC0, 1, 0x80, 0xBF⟩) := by
  have h0 : ¬ b.val < 0x80 := by omega
  simp [utf8Start, inRange, h0, h1, h2]

theorem utf8Start_three (b : Byte) (h1 : 0xE0 ≤ b.val) (h2 : b.val ≤ 0xEF) :
    utf8Start b = ([], some ⟨b.val - 0xE0, 2, if b.val = 0xE0 then 0xA0 else 0x80,
      if b.val = 0xED then 0x9F else 0xBF⟩) := by
  have h0 : ¬ b.val < 0x80 := by omega
  have h3 : ¬ (0xC2 ≤ b.val ∧ b.val ≤ 0xDF) := by omega
  simp only [utf8Start, inRange, h0, h1, h2, h3, if_false, if_true, Bool.and_eq_true,
    decide_eq_true_eq, and_self]

theorem utf8Start_four (b : Byte) (h1 : 0xF0 ≤ b.val) (h2 : b.val ≤ 0xF4) :
    utf8Start b = ([], some ⟨b.val - 0xF0, 3, if b.val = 0xF0 then 0x90 else 0x80,
      if b.val = 0xF4 then 0x8F else 0xBF⟩) := by
  have h0 : ¬ b.val < 0x80 := by omega
  have h3 : ¬ (0xC2 ≤ b.val ∧ b.val ≤ 0xDF) := by omega
  have h4 : ¬ (0xE0 ≤ b.val ∧ b.val ≤ 0xEF) := by omega
  simp only [utf8Start, inRange, h0, h1, h2, h3, h4, if_false, if_true, Bool.and_eq_true,
    decide_eq_true_eq, and_self]

theorem utf8Step_more (p : Pending) (b : Byte) (h1 : p.lower ≤ b.val) (h2 : b.val ≤ p.upper)
    (hr : 1 < p.remaining) :
    utf8Step (some p) b
      = ([], some ⟨p.codePoint * 64 + (b.val - 0x80), p.remaining - 1, 0x80, 0xBF⟩) := by
  have hr1 : ¬ p.remaining ≤ 1 := by omega
  simp only [utf8Step, inRange, h1, h2, hr1, if_false, if_true, Bool.and_eq_true,
    decide_eq_true_eq, and_self]

theorem utf8Step_last (p : Pending) (b : Byte) (h1 : p.lower ≤ b.val) (h2 : b.val ≤ p.upper)
    (hr : p.remaining ≤ 1) :
    utf8Step (some p) b = (codeUnitsOf (p.codePoint * 64 + (b.val - 0x80)), none) := by
  simp only [utf8Step, inRange, h1, h2, hr, if_true, Bool.and_eq_true,
    decide_eq_true_eq, and_self]

/-- Decoding the octets of a scalar value gives back its code units. -/
theorem utf8Decode_encodeCodePoint (cp : Nat) (hmax : cp < 0x110000)
    (hs : ¬ (0xD800 ≤ cp ∧ cp ≤ 0xDFFF)) (rest : Bytes) :
    utf8DecodeFrom none (utf8EncodeCodePoint cp ++ rest)
      = codeUnitsOf cp ++ utf8DecodeFrom none rest := by
  unfold utf8EncodeCodePoint
  split
  · next h =>
    have hv : (byteOfNat cp).val = cp := by simp; omega
    have hlt : (byteOfNat cp).val < 0x80 := by omega
    simp only [List.singleton_append, utf8DecodeFrom_cons, utf8Step, utf8Start_one _ hlt, hv]
    have : cp < 0x10000 := by omega
    simp [codeUnitsOf, this]
  · split
    · next h0 h =>
      have hv0 : (byteOfNat (0xC0 + cp / 64)).val = 0xC0 + cp / 64 := by simp; omega
      have hv1 : (byteOfNat (0x80 + cp % 64)).val = 0x80 + cp % 64 := by simp; omega
      have e := utf8Start_two (byteOfNat (0xC0 + cp / 64)) (by omega) (by omega)
      have e1 := utf8Step_last ⟨(byteOfNat (0xC0 + cp / 64)).val - 0xC0, 1, 0x80, 0xBF⟩
        (byteOfNat (0x80 + cp % 64)) (by simp only; omega) (by simp only; omega) (by simp)
      simp only [List.cons_append, List.nil_append, utf8DecodeFrom_cons, utf8Step, e] at e1 ⊢
      rw [e1]
      simp only [hv0, hv1]
      have hcp : (0xC0 + cp / 64 - 0xC0) * 64 + (0x80 + cp % 64 - 0x80) = cp := by omega
      rw [hcp]
    · split
      · next h0 h1 h =>
        have hv0 : (byteOfNat (0xE0 + cp / 4096)).val = 0xE0 + cp / 4096 := by simp; omega
        have hv1 : (byteOfNat (0x80 + cp / 64 % 64)).val = 0x80 + cp / 64 % 64 := by simp; omega
        have hv2 : (byteOfNat (0x80 + cp % 64)).val = 0x80 + cp % 64 := by simp; omega
        have e := utf8Start_three (byteOfNat (0xE0 + cp / 4096)) (by omega) (by omega)
        have e1 := utf8Step_more ⟨(byteOfNat (0xE0 + cp / 4096)).val - 0xE0, 2,
            if (byteOfNat (0xE0 + cp / 4096)).val = 0xE0 then 0xA0 else 0x80,
            if (byteOfNat (0xE0 + cp / 4096)).val = 0xED then 0x9F else 0xBF⟩
          (byteOfNat (0x80 + cp / 64 % 64))
          (by simp only; split <;> omega) (by simp only; split <;> omega) (by simp)
        have e2 := utf8Step_last ⟨((byteOfNat (0xE0 + cp / 4096)).val - 0xE0) * 64
            + ((byteOfNat (0x80 + cp / 64 % 64)).val - 0x80), 1, 0x80, 0xBF⟩
          (byteOfNat (0x80 + cp % 64)) (by simp only; omega) (by simp only; omega) (by simp)
        simp only [List.cons_append, List.nil_append, utf8DecodeFrom_cons, utf8Step, e] at e1 e2 ⊢
        rw [e1]
        simp only [List.nil_append]
        rw [e2]
        simp only [hv0, hv1, hv2]
        have hcp : ((0xE0 + cp / 4096 - 0xE0) * 64 + (0x80 + cp / 64 % 64 - 0x80)) * 64
            + (0x80 + cp % 64 - 0x80) = cp := by omega
        rw [hcp]
      · next h0 h1 h2 =>
        have hv0 : (byteOfNat (0xF0 + cp / 262144)).val = 0xF0 + cp / 262144 := by simp; omega
        have hv1 : (byteOfNat (0x80 + cp / 4096 % 64)).val = 0x80 + cp / 4096 % 64 := by
          simp; omega
        have hv2 : (byteOfNat (0x80 + cp / 64 % 64)).val = 0x80 + cp / 64 % 64 := by simp; omega
        have hv3 : (byteOfNat (0x80 + cp % 64)).val = 0x80 + cp % 64 := by simp; omega
        have e := utf8Start_four (byteOfNat (0xF0 + cp / 262144)) (by omega) (by omega)
        have e1 := utf8Step_more ⟨(byteOfNat (0xF0 + cp / 262144)).val - 0xF0, 3,
            if (byteOfNat (0xF0 + cp / 262144)).val = 0xF0 then 0x90 else 0x80,
            if (byteOfNat (0xF0 + cp / 262144)).val = 0xF4 then 0x8F else 0xBF⟩
          (byteOfNat (0x80 + cp / 4096 % 64))
          (by simp only; split <;> omega) (by simp only; split <;> omega) (by simp)
        have e2 := utf8Step_more ⟨((byteOfNat (0xF0 + cp / 262144)).val - 0xF0) * 64
            + ((byteOfNat (0x80 + cp / 4096 % 64)).val - 0x80), 2, 0x80, 0xBF⟩
          (byteOfNat (0x80 + cp / 64 % 64)) (by simp only; omega) (by simp only; omega) (by simp)
        have e3 := utf8Step_last ⟨(((byteOfNat (0xF0 + cp / 262144)).val - 0xF0) * 64
            + ((byteOfNat (0x80 + cp / 4096 % 64)).val - 0x80)) * 64
            + ((byteOfNat (0x80 + cp / 64 % 64)).val - 0x80), 1, 0x80, 0xBF⟩
          (byteOfNat (0x80 + cp % 64)) (by simp only; omega) (by simp only; omega) (by simp)
        simp only [List.cons_append, List.nil_append, utf8DecodeFrom_cons, utf8Step, e]
          at e1 e2 e3 ⊢
        rw [e1]
        simp only [List.nil_append]
        rw [e2]
        simp only [List.nil_append]
        rw [e3]
        simp only [hv0, hv1, hv2, hv3]
        have hcp : (((0xF0 + cp / 262144 - 0xF0) * 64 + (0x80 + cp / 4096 % 64 - 0x80)) * 64
            + (0x80 + cp / 64 % 64 - 0x80)) * 64 + (0x80 + cp % 64 - 0x80) = cp := by omega
        rw [hcp]


theorem codeUnitsOf_lone (u : CodeUnit) (h : isSurrogate u = false) :
    codeUnitsOf (loneCodePoint u) = [u] := by
  have hu := u.isLt
  simp only [loneCodePoint, h, codeUnitsOf, hu, if_true, Bool.false_eq_true, if_false,
    List.cons.injEq, and_true]
  apply Fin.ext
  simp only [unitOfNat_val]
  omega

theorem codeUnitsOf_pair (u v : CodeUnit) (hu : isHighSurrogate u = true)
    (hv : isLowSurrogate v = true) :
    codeUnitsOf (0x10000 + (u.val - 0xD800) * 0x400 + (v.val - 0xDC00)) = [u, v] := by
  simp only [isHighSurrogate, isLowSurrogate, Bool.and_eq_true, decide_eq_true_eq] at hu hv
  have h : ¬ (0x10000 + (u.val - 0xD800) * 0x400 + (v.val - 0xDC00) < 0x10000) := by omega
  simp only [codeUnitsOf, h, if_false, List.cons.injEq, and_true]
  constructor <;> apply Fin.ext <;> simp only [unitOfNat_val] <;> omega

theorem loneCodePoint_scalar (u : CodeUnit) :
    loneCodePoint u < 0x110000 ∧ ¬ (0xD800 ≤ loneCodePoint u ∧ loneCodePoint u ≤ 0xDFFF) := by
  have hu := u.isLt
  unfold loneCodePoint isSurrogate
  split
  · omega
  · next h =>
    simp only [Bool.and_eq_true, decide_eq_true_eq] at h
    omega

/-- Reading back what was written returns a well-formed string unchanged. -/
theorem utf8Decode_utf8Encode (s : JSString) (h : isWellFormed s = true) :
    utf8Decode (utf8Encode s) = s := by
  unfold utf8Decode
  induction s using utf8Encode.induct with
  | case1 => rfl
  | case2 u =>
    simp only [isWellFormed, Bool.not_eq_true'] at h
    have := utf8Decode_encodeCodePoint (loneCodePoint u) (loneCodePoint_scalar u).1
      (loneCodePoint_scalar u).2 []
    simp only [List.append_nil] at this
    rw [utf8Encode, this, codeUnitsOf_lone u h]
    rfl
  | case3 u v rest hp ih =>
    simp only [Bool.and_eq_true] at hp
    simp only [isWellFormed, hp.1, if_true, Bool.and_eq_true] at h
    have hlt : 0x10000 + (u.val - 0xD800) * 0x400 + (v.val - 0xDC00) < 0x110000 := by
      have := hp.1; have := hp.2
      simp only [isHighSurrogate, isLowSurrogate, Bool.and_eq_true, decide_eq_true_eq] at *
      omega
    rw [utf8Encode]
    simp only [hp.1, hp.2, Bool.and_self, if_true]
    rw [utf8Decode_encodeCodePoint _ hlt (by omega), codeUnitsOf_pair u v hp.1 hp.2, ih h.2]
    rfl
  | case4 u v rest hp ih =>
    have hu : isHighSurrogate u = false := by
      cases hh : isHighSurrogate u with
      | false => rfl
      | true =>
        simp only [isWellFormed, hh, if_true, Bool.and_eq_true] at h
        simp [hh, h.1] at hp
    simp only [isWellFormed, hu, Bool.false_eq_true, if_false, Bool.and_eq_true,
      Bool.not_eq_true'] at h
    rw [utf8Encode]
    simp only [hu, Bool.false_and, Bool.false_eq_true, if_false]
    rw [utf8Decode_encodeCodePoint _ (loneCodePoint_scalar u).1 (loneCodePoint_scalar u).2,
      codeUnitsOf_lone u h.1, ih h.2]
    rfl

/-! ### The encryption helpers -/

theorem maskGcm_lawful : maskGcm.Lawful := by
  intro key iv pt hk hiv
  refine ⟨pt.map (fun b => b + (byteSum key + byteSum iv)),
    List.replicate AUTH_TAG_LENGTH
      (byteSum key + byteSum iv + byteSum (pt.map (fun b => b + (byteSum key + byteSum iv)))),
    ?_, ?_, ?_⟩
  · simp [maskGcm, hk, hiv]
  · simp
  · simp [maskGcm, hk, hiv, Function.comp_def]

theorem subarray_zero (data : Bytes) (n : Nat) : subarray data 0 n = data.take n := by
  simp [subarray]

theorem splitEnvelope_hexEncode (iv tag ct : Bytes) (hiv : iv.length = IV_LENGTH)
    (htag : tag.length = AUTH_TAG_LENGTH) :
    splitEnvelope (hexEncode iv ++ hexEncode tag ++ hexEncode ct) = (iv, tag, ct) := by
  have e : hexEncode iv ++ hexEncode tag ++ hexEncode ct = hexEncode (iv ++ (tag ++ ct)) := by
    simp [hexEncode_append]
  simp only [splitEnvelope, e, hexDecode_hexEncode, subarray]
  have h1 : List.take IV_LENGTH (iv ++ (tag ++ ct)) = iv := by
    rw [← hiv]; exact List.take_left' rfl
  have h2 : List.drop IV_LENGTH (List.take (IV_LENGTH + AUTH_TAG_LENGTH) (iv ++ (tag ++ ct)))
      = tag := by
    rw [← hiv, ← htag, ← List.append_assoc, List.take_left' (by simp), List.drop_left' rfl]
  have h3 : List.drop (IV_LENGTH + AUTH_TAG_LENGTH) (iv ++ (tag ++ ct)) = ct := by
    rw [← hiv, ← htag, ← List.append_assoc, List.drop_left' (by simp)]
  simp only [List.drop_zero, h1, h2, h3]

/-- Under a lawful cipher, a 32-octet key and a 16-octet IV, encrypt returns and
decrypt gives back the text as UTF-8 writes and reads it. -/
theorem decrypt_encrypt (g : Gcm) (hg : g.Lawful) (KEY iv : Bytes) (hk : KEY.length = 32)
    (hiv : iv.length = IV_LENGTH) (text : JSString) :
    ∃ e, encrypt g KEY iv text = some e ∧ decrypt g KEY e = utf8Decode (utf8Encode text) := by
  obtain ⟨ct, tag, hs, htag, hu⟩ := hg KEY iv (utf8Encode text) hk hiv
  refine ⟨hexEncode iv ++ hexEncode tag ++ hexEncode ct, ?_, ?_⟩
  · simp [encrypt, hk, hs]
  · have hsplit := splitEnvelope_hexEncode iv tag ct hiv htag
    simp only [decrypt, decryptTry, hk, hsplit, hu, ne_eq, not_true_eq_false, if_false]

/-! ### Dates -/

theorem dayFromYear_lower (d y : Int) (hy : y = 1970 + 400 * d / 146097) :
    dayFromYear (y - 1) ≤ d ∧ d < dayFromYear (y + 2) := by
  subst hy
  unfold dayFromYear
  constructor <;> omega

/-- The year found is the one the day falls in. -/
theorem yearFromDay_spec (d : Int) :
    dayFromYear (yearFromDay d) ≤ d ∧ d < dayFromYear (yearFromDay d + 1) := by
  have h := dayFromYear_lower d _ rfl
  unfold yearFromDay
  simp only
  split
  · next h1 =>
    refine ⟨h.1, ?_⟩
    rw [Int.sub_add_cancel]; exact h1
  · split
    · next h1 h2 =>
      refine ⟨h2, ?_⟩
      rw [Int.add_assoc]; exact h.2
    · next h1 h2 => exact ⟨by omega, by omega⟩

theorem dayFromYear_succ (y : Int) :
    dayFromYear (y + 1) = dayFromYear y + (if isLeapYear y then 366 else 365) := by
  unfold dayFromYear isLeapYear
  split
  · next h =>
    simp only [Bool.and_eq_true, Bool.or_eq_true, decide_eq_true_eq, ne_eq] at h
    omega
  · next h =>
    simp only [Bool.and_eq_true, Bool.or_eq_true, decide_eq_true_eq, ne_eq, not_and, not_or,
      Decidable.not_not] at h
    omega

theorem dayFromYear_mono (a b : Int) (h : a ≤ b) : dayFromYear a ≤ dayFromYear b := by
  unfold dayFromYear
  omega

theorem daysBeforeYear_eq (n : Nat) : (daysBeforeYear n : Int) = dayFromYear n + 719528 := by
  induction n with
  | zero => decide
  | succ n ih =>
    simp only [daysBeforeYear, Nat.cast_add, ih, Nat.cast_succ, dayFromYear_succ, daysInYear]
    split <;> simp <;> omega

theorem daysThroughMonth_eq (leap : Bool) (m : Nat) (hm : m ≤ 11) :
    (daysThroughMonth leap m : Int) = monthStart leap m := by
  interval_cases m <;> cases leap <;>
    simp [daysThroughMonth, daysInMonth, monthStart, leapDay]

/-- The month found is the one the day of the year falls in. -/
theorem monthFromDayInYear_spec (leap : Bool) (d : Int) (hd0 : 0 ≤ d)
    (hd1 : d < 365 + leapDay leap) :
    monthFromDayInYear leap d ≤ 11 ∧
      monthStart leap (monthFromDayInYear leap d) ≤ d ∧
      d < monthStart leap (monthFromDayInYear leap d)
        + daysInMonth leap (monthFromDayInYear leap d + 1) := by
  unfold monthFromDayInYear
  by_cases h0 : d < 31
  · rw [if_pos h0]
    refine ⟨by omega, ?_, ?_⟩ <;> simp only [monthStart, daysInMonth, Nat.reduceAdd] <;>
      cases leap <;> simp [leapDay] at * <;> omega
  rw [if_neg h0]
  by_cases h1 : d < 59 + leapDay leap
  · rw [if_pos h1]
    refine ⟨by omega, ?_, ?_⟩ <;> simp only [monthStart, daysInMonth, Nat.reduceAdd] <;>
      cases leap <;> simp [leapDay] at * <;> omega
  rw [if_neg h1]
  by_cases h2 : d < 90 + leapDay leap
  · rw [if_pos h2]
    refine ⟨by omega, ?_, ?_⟩ <;> simp only [monthStart, daysInMonth, Nat.reduceAdd] <;>
      cases leap <;> simp [leapDay] at * <;> omega
  rw [if_neg h2]
  by_cases h3 : d < 120 + leapDay leap
  · rw [if_pos h3]
    refine ⟨by omega, ?_, ?_⟩ <;> simp only [monthStart, daysInMonth, Nat.reduceAdd] <;>
      cases leap <;> simp [leapDay] at * <;> omega
  rw [if_neg h3]
  by_cases h4 : d < 151 + leapDay leap
  · rw [if_pos h4]
    refine ⟨by omega, ?_, ?_⟩ <;> simp only [monthStart, daysInMonth, Nat.reduceAdd] <;>
      cases leap <;> simp [leapDay] at * <;> omega
  rw [if_neg h4]
  by_cases h5 : d < 181 + leapDay leap
  · rw [if_pos h5]
    refine ⟨by omega, ?_, ?_⟩ <;> simp only [monthStart, daysInMonth, Nat.reduceAdd] <;>
      cases leap <;> simp [leapDay] at * <;> omega
  rw [if_neg h5]
  by_cases h6 : d < 212 + leapDay leap
  · rw [if_pos h6]
    refine ⟨by omega, ?_, ?_⟩ <;> simp only [monthStart, daysInMonth, Nat.reduceAdd] <;>
      cases leap <;> simp [leapDay] at * <;> omega
  rw [if_neg h6]
  by_cases h7 : d < 243 + leapDay leap
  · rw [if_pos h7]
    refine ⟨by omega, ?_, ?_⟩ <;> simp only [monthStart, daysInMonth, Nat.reduceAdd] <;>
      cases leap <;> simp [leapDay] at * <;> omega
  rw [if_neg h7]
  by_cases h8 : d < 273 + leapDay leap
  · rw [if_pos h8]
    refine ⟨by omega, ?_, ?_⟩ <;> simp only [monthStart, daysInMonth, Nat.reduceAdd] <;>
      cases leap <;> simp [leapDay] at * <;> omega
  rw [if_neg h8]
  by_cases h9 : d < 304 + leapDay leap
  · rw [if_pos h9]
    refine ⟨by omega, ?_, ?_⟩ <;> simp only [monthStart, daysInMonth, Nat.reduceAdd] <;>
      cases leap <;> simp [leapDay] at * <;> omega
  rw [if_neg h9]
  by_cases h10 : d < 334 + leapDay leap
  · rw [if_pos h10]
    refine ⟨by omega, ?_, ?_⟩ <;> simp only [monthStart, daysInMonth, Nat.reduceAdd] <;>
      cases leap <;> simp [leapDay] at * <;> omega
  rw [if_neg h10]
  refine ⟨by omega, ?_, ?_⟩ <;> simp only [monthStart, daysInMonth, Nat.reduceAdd] <;>
    cases leap <;> simp [leapDay] at * <;> omega

theorem digits_length (w n : Nat) : (digits w n).length = w := by
  induction w generalizing n with
  | zero => rfl
  | succ w ih => simp [digits, ih]

theorem letterT_not_mem_digits (w n : Nat) : unitOfNat 84 ∉ digits w n := by
  induction w generalizing n with
  | zero => simp [digits]
  | succ w ih =>
    simp only [digits, List.mem_append, List.mem_singleton, not_or]
    refine ⟨ih _, ?_⟩
    intro h
    have := congrArg Fin.val h
    simp only [unitOfNat, Fin.val_mk] at this
    omega

theorem replaceFirst_append (a b : CodeUnit) (xs ys : JSString) (h : a ∉ xs) :
    replaceFirst a b (xs ++ a :: ys) = xs ++ b :: ys := by
  induction xs with
  | nil => simp [replaceFirst]
  | cons c xs ih =>
    simp only [List.mem_cons, not_or] at h
    have hc : ¬ c = a := fun e => h.1 e.symm
    simp [replaceFirst, hc, ih h.2]

theorem isoYear_fourDigits (y : Nat) (h : y ≤ 9999) : isoYear y = digits 4 y := by
  have h1 : (0 : Int) ≤ y ∧ (y : Int) ≤ 9999 := ⟨by omega, by omega⟩
  simp [isoYear, h1]

/-- The text formatTimestamp returns for a Date whose calendar fields are known. -/
theorem formatTimestamp_fields (tv : Int) (Y M D h m s ms : Nat) (hY : Y ≤ 9999)
    (hv : isValidTime tv = true)
    (e : toISOString tv = isoYear Y ++ js "-" ++ digits 2 M ++ js "-" ++ digits 2 D ++ js "T"
      ++ digits 2 h ++ js ":" ++ digits 2 m ++ js ":" ++ digits 2 s ++ js "." ++ digits 3 ms
      ++ js "Z") :
    formatTimestamp (.timestamp ⟨tv⟩) = some (dateTimeText Y M D h m s) := by
  have hd : js "-" = [unitOfNat 45] := by decide
  have hT : js "T" = [unitOfNat 84] := by decide
  have hsp : js " " = [unitOfNat 32] := by decide
  have hne : unitOfNat 84 ∉ digits 4 Y ++ [unitOfNat 45] ++ digits 2 M ++ [unitOfNat 45]
      ++ digits 2 D := by
    simp only [List.mem_append, List.mem_singleton, not_or]
    exact ⟨⟨⟨⟨letterT_not_mem_digits _ _, by decide⟩, letterT_not_mem_digits _ _⟩, by decide⟩,
      letterT_not_mem_digits _ _⟩
  have e2 : toISOString tv = (digits 4 Y ++ [unitOfNat 45] ++ digits 2 M ++ [unitOfNat 45]
      ++ digits 2 D) ++ unitOfNat 84 :: (digits 2 h ++ js ":" ++ digits 2 m ++ js ":"
      ++ digits 2 s ++ js "." ++ digits 3 ms ++ js "Z") := by
    rw [e, isoYear_fourDigits Y hY, hd, hT]
    simp only [List.append_assoc, List.singleton_append, List.cons_append, List.nil_append]
  have e3 : dateTimeText Y M D h m s ++ (js "." ++ digits 3 ms ++ js "Z")
      = (digits 4 Y ++ [unitOfNat 45] ++ digits 2 M ++ [unitOfNat 45]
      ++ digits 2 D) ++ unitOfNat 32 :: (digits 2 h ++ js ":" ++ digits 2 m ++ js ":"
      ++ digits 2 s ++ js "." ++ digits 3 ms ++ js "Z") := by
    rw [dateTimeText, hd, hsp]
    simp only [List.append_assoc, List.singleton_append, List.cons_append, List.nil_append]
  have hlen : (dateTimeText Y M D h m s).length = 19 := by
    simp [dateTimeText, digits_length, js]
  simp only [formatTimestamp, hv, if_true, e2, replaceFirst_append _ _ _ _ hne, ← e3, substring0]
  rw [List.take_left' hlen]

theorem dateTimeText_length (Y M D h m s : Nat) : (dateTimeText Y M D h m s).length = 19 := by
  simp [dateTimeText, digits_length, js]

/-- The calendar fields of a Date in the years 0000 to 9999, the text
formatTimestamp returns for it, and the instant the fields denote. -/
theorem formatTimestamp_civil (tv : Int) (hlo : -62167219200000 ≤ tv)
    (hhi : tv < 253402300800000) :
    ∃ Y M D h m s : Nat, Y ≤ 9999 ∧ 1 ≤ M ∧ M ≤ 12 ∧ 1 ≤ D ∧ D ≤ daysInMonth (isLeapYear Y) M ∧
      h < 24 ∧ m < 60 ∧ s < 60 ∧
      formatTimestamp (.timestamp ⟨tv⟩) = some (dateTimeText Y M D h m s) ∧
      utcSeconds Y M D h m s = tv / 1000 := by
  obtain ⟨day, hd⟩ : ∃ day, tv / msPerDay = day := ⟨_, rfl⟩
  obtain ⟨ms, hr⟩ : ∃ ms, tv % msPerDay = ms := ⟨_, rfl⟩
  have hday : -719528 ≤ day ∧ day < 2932897 := by
    unfold msPerDay at hd; omega
  have hms : 0 ≤ ms ∧ ms < 86400000 := by
    unfold msPerDay at hr; omega
  have htv : tv = day * 86400000 + ms := by
    unfold msPerDay at hd hr; omega
  have hy := yearFromDay_spec day
  have hy0 : 0 ≤ yearFromDay day := by
    by_contra hneg
    have h1 := dayFromYear_mono (yearFromDay day + 1) 0 (by omega)
    have h2 : dayFromYear 0 = -719528 := by decide
    omega
  have hy1 : yearFromDay day ≤ 9999 := by
    by_contra hbig
    have h1 := dayFromYear_mono 10000 (yearFromDay day) (by omega)
    have h2 : dayFromYear 10000 = 2932897 := by decide
    omega
  have hsucc := dayFromYear_succ (yearFromDay day)
  have hdiy1 : day - dayFromYear (yearFromDay day)
      < 365 + leapDay (isLeapYear (yearFromDay day)) := by
    cases hl : isLeapYear (yearFromDay day) <;>
      simp only [hl, leapDay, if_true, if_false, Bool.false_eq_true] at hsucc ⊢ <;> omega
  have hm := monthFromDayInYear_spec (isLeapYear (yearFromDay day))
    (day - dayFromYear (yearFromDay day)) (by omega) hdiy1
  obtain ⟨Y, hY⟩ := Int.eq_ofNat_of_zero_le hy0
  rw [hY] at hy hy1 hm
  generalize hmo : monthFromDayInYear (isLeapYear (Y : Int)) (day - dayFromYear Y) = month at hm
  have hiso : toISOString tv = isoYear Y ++ js "-" ++ digits 2 (month + 1) ++ js "-"
      ++ digits 2 (day - dayFromYear Y - monthStart (isLeapYear (Y : Int)) month + 1).toNat
      ++ js "T" ++ digits 2 (ms / 3600000).toNat ++ js ":" ++ digits 2 (ms / 60000 % 60).toNat
      ++ js ":" ++ digits 2 (ms / 1000 % 60).toNat ++ js "." ++ digits 3 (ms % 1000).toNat
      ++ js "Z" := by
    simp only [toISOString, hd, hr, hY, hmo]
  refine ⟨Y, month + 1,
    (day - dayFromYear Y - monthStart (isLeapYear (Y : Int)) month + 1).toNat,
    (ms / 3600000).toNat, (ms / 60000 % 60).toNat, (ms / 1000 % 60).toNat,
    by omega, by omega, by omega, by omega, by omega, by omega, by omega, by omega,
    formatTimestamp_fields tv _ _ _ _ _ _ _ (by omega)
      (by simp only [isValidTime, Bool.and_eq_true, decide_eq_true_eq]; omega) hiso, ?_⟩
  have hb := daysBeforeYear_eq Y
  have ht := daysThroughMonth_eq (isLeapYear (Y : Int)) month hm.1
  simp only [utcSeconds, Nat.add_sub_cancel]
  push_cast
  rw [hb, ht]
  omega

theorem dateTimeText_head (Y M D h m s : Nat) :
    (dateTimeText Y M D h m s).head? = some (unitOfNat (48 + Y / 10 / 10 / 10 % 10)) := by
  simp only [dateTimeText, digits, List.nil_append, List.append_assoc, List.singleton_append,
    List.cons_append, List.head?_cons]

/-! ### The subscription callbacks -/

theorem includes_iff (text keyword : JSString) :
    includes text keyword = true ↔ keyword <:+: text := by
  induction text with
  | nil => simp [includes, List.isEmpty_iff]
  | cons c text ih =>
    simp only [includes, Bool.or_eq_true, ih, List.isPrefixOf_iff_prefix, List.infix_cons_iff]

/-- The condition of line 154, in terms of the keyword and the text. -/
theorem filter_condition (keyword text : JSString) :
    (!keyword.isEmpty && !includes text keyword) = true ↔ ¬ (keyword = [] ∨ keyword <:+: text) := by
  simp only [Bool.and_eq_true, Bool.not_eq_true', not_or, ← includes_iff]
  cases keyword <;> simp

/-- The callback gets past line 146 when the Date of the timestamp is valid. -/
theorem formatTimestamp_timestamp (t : Timestamp) (h : isValidTime t.toDate = true) :
    ∃ ts, formatTimestamp (.timestamp t) = some ts := by
  simp only [formatTimestamp, h, if_true]
  exact ⟨_, rfl⟩

/-- A message that does not pass the filter leaves the counter as it is; only what
decrypt wrote is added to the console. -/
theorem onMessage_rejected (g : Gcm) (cfg : Config) (st : Subscriber) (m : TopicMessage)
    (ts : JSString) (hts : formatTimestamp (.timestamp m.consensusTimestamp) = some ts)
    (h : ¬ (cfg.FILTER_KEYWORD = [] ∨ cfg.FILTER_KEYWORD <:+: decodedText g cfg m)) :
    onMessage g cfg st m = some ⟨st.receiveCount, consoleDecoded cfg st, st.closed, st.exitCode⟩ := by
  have hc := (filter_condition cfg.FILTER_KEYWORD (decodedText g cfg m)).mpr h
  simp only [decodedText] at hc
  simp only [onMessage, hts, hc, if_true, consoleDecoded]

/-- A message that passes the filter is counted and written to the console, and
the script exits when the count reaches the number of messages to send. -/
theorem onMessage_accepted (g : Gcm) (cfg : Config) (st : Subscriber) (m : TopicMessage)
    (ts : JSString) (hts : formatTimestamp (.timestamp m.consensusTimestamp) = some ts)
    (h : cfg.FILTER_KEYWORD = [] ∨ cfg.FILTER_KEYWORD <:+: decodedText g cfg m) :
    onMessage g cfg st m = some
      (if st.receiveCount + 1 = cfg.MESSAGES_TO_SEND.length then
        ⟨st.receiveCount + 1,
          consoleDecoded cfg st ++ [Line.received (st.receiveCount + 1) (decodedText g cfg m) ts]
            ++ [Line.info (js "\nReceived all messages. Closing connection.")],
          true, some 0⟩
      else ⟨st.receiveCount + 1,
        consoleDecoded cfg st ++ [Line.received (st.receiveCount + 1) (decodedText g cfg m) ts],
        st.closed, st.exitCode⟩) := by
  have hc : (!cfg.FILTER_KEYWORD.isEmpty && !includes (decodedText g cfg m) cfg.FILTER_KEYWORD)
      = false := by
    rw [← Bool.not_eq_true, filter_condition]
    exact not_not.mpr h
  simp only [decodedText] at hc
  simp only [onMessage, hts, hc, Bool.false_eq_true, if_false, consoleDecoded, decodedText]
  split <;> rfl

theorem received_mem_consoleDecoded (cfg : Config) (st : Subscriber) (i : Nat)
    (text ts : JSString) (h : Line.received i text ts ∈ consoleDecoded cfg st) :
    Line.received i text ts ∈ st.console := by
  unfold consoleDecoded decryptConsole at h
  split at h
  · split at h
    · simpa using h
    · simpa using h
  · exact h

theorem deliver_exited (g : Gcm) (cfg : Config) (st : Subscriber) (events : List Inbound)
    (h : st.exitCode.isSome = true) : deliver g cfg st events = some st := by
  cases events with
  | nil => rfl
  | cons e rest => simp [deliver, h]

theorem deliver_append (g : Gcm) (cfg : Config) (st : Subscriber) (xs ys : List Inbound) :
    deliver g cfg st (xs ++ ys) = (deliver g cfg st xs).bind (fun st1 => deliver g cfg st1 ys) := by
  induction xs generalizing st with
  | nil => rfl
  | cons e rest ih =>
    cases hx : st.exitCode.isSome with
    | true =>
      rw [List.cons_append, deliver_exited g cfg st _ hx, deliver_exited g cfg st _ hx]
      simp [deliver_exited g cfg st _ hx]
    | false =>
      cases e with
      | message m =>
        simp only [List.cons_append, deliver, hx, Bool.false_eq_true, if_false]
        cases onMessage g cfg st m with
        | none => rfl
        | some st1 => exact ih st1
      | error =>
        simp only [List.cons_append, deliver, hx, Bool.false_eq_true, if_false]
        exact ih _

theorem onMessage_bounded (g : Gcm) (cfg : Config) (st st1 : Subscriber) (m : TopicMessage)
    (hb : st.Bounded cfg.MESSAGES_TO_SEND.length) (hx : st.exitCode.isSome = false)
    (h : onMessage g cfg st m = some st1) : st1.Bounded cfg.MESSAGES_TO_SEND.length := by
  cases hts : formatTimestamp (.timestamp m.consensusTimestamp) with
  | none => simp [onMessage, hts] at h
  | some ts =>
    obtain ⟨h1, h2, h3⟩ := hb
    have hlt : st.receiveCount < cfg.MESSAGES_TO_SEND.length := by
      rcases Nat.lt_or_eq_of_le h1 with hl | he
      · exact hl
      · rw [(h3 he).1] at hx; simp at hx
    by_cases hf : cfg.FILTER_KEYWORD = [] ∨ cfg.FILTER_KEYWORD <:+: decodedText g cfg m
    · rw [onMessage_accepted g cfg st m ts hts hf] at h
      split at h
      · next heq =>
        cases h
        refine ⟨by simp only; omega, ?_, fun _ => ⟨rfl, rfl⟩⟩
        intro i text ts1 hmem
        simp only [List.mem_append, List.mem_singleton, Line.received.injEq, reduceCtorEq,
          or_false] at hmem
        rcases hmem with hmem | ⟨hi, _, _⟩
        · exact h2 i text ts1 (received_mem_consoleDecoded cfg st i text ts1 hmem)
        · omega
      · next hne =>
        cases h
        refine ⟨by simp only; omega, ?_, fun he => absurd he hne⟩
        intro i text ts1 hmem
        simp only [List.mem_append, List.mem_singleton, Line.received.injEq] at hmem
        rcases hmem with hmem | ⟨hi, _, _⟩
        · exact h2 i text ts1 (received_mem_consoleDecoded cfg st i text ts1 hmem)
        · omega
    · rw [onMessage_rejected g cfg st m ts hts hf] at h
      cases h
      refine ⟨h1, ?_, fun he => ?_⟩
      · intro i text ts1 hmem
        exact h2 i text ts1 (received_mem_consoleDecoded cfg st i text ts1 hmem)
      · exact absurd he (Nat.ne_of_lt hlt)

theorem onError_bounded (n : Nat) (st : Subscriber) (hb : st.Bounded n)
    (hx : st.exitCode.isSome = false) : (onError st).Bounded n := by
  obtain ⟨h1, h2, h3⟩ := hb
  refine ⟨h1, ?_, ?_⟩
  · intro i text ts hmem
    simp only [onError, List.mem_append, List.mem_singleton, reduceCtorEq, or_false] at hmem
    exact h2 i text ts hmem
  · intro he
    rw [(h3 he).1] at hx; simp at hx

/-- The message callback returns when the Date of the timestamp is valid. -/
theorem onMessage_returns (g : Gcm) (cfg : Config) (st : Subscriber) (m : TopicMessage)
    (hv : isValidTime m.consensusTimestamp.toDate = true) :
    ∃ st1, onMessage g cfg st m = some st1 := by
  obtain ⟨ts, hts⟩ := formatTimestamp_timestamp m.consensusTimestamp hv
  by_cases hf : cfg.FILTER_KEYWORD = [] ∨ cfg.FILTER_KEYWORD <:+: decodedText g cfg m
  · exact ⟨_, onMessage_accepted g cfg st m ts hts hf⟩
  · exact ⟨_, onMessage_rejected g cfg st m ts hts hf⟩

theorem validTimes_cons (e : Inbound) (rest : List Inbound) (h : validTimes (e :: rest)) :
    validTimes rest := fun m hm => h m (List.mem_cons_of_mem _ hm)

/-- Over messages with valid Dates the callbacks always return, and keep the state
bounded. -/
theorem deliver_bounded (g : Gcm) (cfg : Config) (events : List Inbound) (st : Subscriber)
    (hv : validTimes events) (hb : st.Bounded cfg.MESSAGES_TO_SEND.length) :
    ∃ st1, deliver g cfg st events = some st1 ∧ st1.Bounded cfg.MESSAGES_TO_SEND.length := by
  induction events generalizing st with
  | nil => exact ⟨st, rfl, hb⟩
  | cons e rest ih =>
    cases hx : st.exitCode.isSome with
    | true => exact ⟨st, deliver_exited g cfg st _ hx, hb⟩
    | false =>
      cases e with
      | message m =>
        obtain ⟨st1, h1⟩ := onMessage_returns g cfg st m (hv m (List.mem_cons_self _ _))
        obtain ⟨st2, h2, hb2⟩ := ih st1 (validTimes_cons _ _ hv)
          (onMessage_bounded g cfg st st1 m hb hx h1)
        refine ⟨st2, ?_, hb2⟩
        simp only [deliver, hx, Bool.false_eq_true, if_false, h1, h2]
      | error =>
        obtain ⟨st2, h2, hb2⟩ := ih (onError st) (validTimes_cons _ _ hv)
          (onError_bounded _ st hb hx)
        refine ⟨st2, ?_, hb2⟩
        simp only [deliver, hx, Bool.false_eq_true, if_false, h2]

/-- For a list of n ≥ 1 messages to send and any delivery of messages with valid
Dates and of errors: the callbacks return, the counter never exceeds n, no
received line has a number above n, and once the counter is n the client is
closed, the exit status is 0 and whatever is delivered later changes nothing. -/
theorem deliver_terminates (g : Gcm) (cfg : Config)
    (hN : 1 ≤ cfg.MESSAGES_TO_SEND.length) (events : List Inbound) (hv : validTimes events) :
    ∃ st, deliver g cfg Subscriber.init events = some st ∧
      st.receiveCount ≤ cfg.MESSAGES_TO_SEND.length ∧
      (∀ i text ts, Line.received i text ts ∈ st.console → i ≤ cfg.MESSAGES_TO_SEND.length) ∧
      (st.receiveCount = cfg.MESSAGES_TO_SEND.length →
        st.exitCode = some 0 ∧ st.closed = true ∧
        ∀ later, deliver g cfg Subscriber.init (events ++ later) = some st) := by
  have hinit : Subscriber.init.Bounded cfg.MESSAGES_TO_SEND.length := by
    refine ⟨Nat.zero_le _, fun i text ts hmem => ?_, fun he => ?_⟩
    · simp [Subscriber.init] at hmem
    · simp only [Subscriber.init] at he
      omega
  obtain ⟨st, h1, hb1, hb2, hb3⟩ := deliver_bounded g cfg events Subscriber.init hv hinit
  refine ⟨st, h1, hb1, hb2, fun he => ⟨(hb3 he).1, (hb3 he).2, fun later => ?_⟩⟩
  rw [deliver_append, h1]
  exact deliver_exited g cfg st later (by simp [(hb3 he).1])

/-- The counter after a run of messages none of which came after the exit. -/
theorem deliver_count (g : Gcm) (cfg : Config) (ms : List TopicMessage) (st : Subscriber)
    (hv : ∀ m ∈ ms, isValidTime m.consensusTimestamp.toDate = true)
    (hx : st.exitCode = none)
    (hlive : ∀ st1, deliver g cfg st (ms.dropLast.map Inbound.message) = some st1 →
      st1.exitCode = none) :
    ∃ st1, deliver g cfg st (ms.map Inbound.message) = some st1 ∧
      st1.receiveCount = st.receiveCount + ms.countP (fun m =>
        decide (cfg.FILTER_KEYWORD = [] ∨ cfg.FILTER_KEYWORD <:+: decodedText g cfg m)) := by
  induction ms generalizing st with
  | nil => exact ⟨st, rfl, by simp⟩
  | cons m rest ih =>
    have hxs : st.exitCode.isSome = false := by simp [hx]
    obtain ⟨ts, hts⟩ := formatTimestamp_timestamp m.consensusTimestamp
      (hv m (List.mem_cons_self _ _))
    obtain ⟨st1, h1⟩ := onMessage_returns g cfg st m (hv m (List.mem_cons_self _ _))
    have hcount : st1.receiveCount = st.receiveCount + (if cfg.FILTER_KEYWORD = []
        ∨ cfg.FILTER_KEYWORD <:+: decodedText g cfg m then 1 else 0) := by
      by_cases hf : cfg.FILTER_KEYWORD = [] ∨ cfg.FILTER_KEYWORD <:+: decodedText g cfg m
      · rw [onMessage_accepted g cfg st m ts hts hf] at h1
        simp only [hf, if_true]
        split at h1 <;> cases h1 <;> rfl
      · rw [onMessage_rejected g cfg st m ts hts hf] at h1
        cases h1
        simp [hf]
    cases rest with
    | nil =>
      refine ⟨st1, ?_, ?_⟩
      · simp only [List.map, deliver, hxs, Bool.false_eq_true, if_false, h1]
      · rw [hcount]
        by_cases hf : cfg.FILTER_KEYWORD = [] ∨ cfg.FILTER_KEYWORD <:+: decodedText g cfg m <;>
          simp [hf]
    | cons m2 rest2 =>
      have hx1 : st1.exitCode = none := by
        cases he : st1.exitCode with
        | none => rfl
        | some c =>
          have hs1 : st1.exitCode.isSome = true := by simp [he]
          have := hlive st1 (by
            simp only [List.dropLast_cons₂, List.map, deliver, hxs, Bool.false_eq_true,
              if_false, h1]
            exact deliver_exited g cfg st1 _ hs1)
          rw [he] at this
          cases this
      obtain ⟨st2, h2, hc2⟩ := ih st1 (fun x hx2 => hv x (List.mem_cons_of_mem _ hx2)) hx1 (by
        intro st3 h3
        apply hlive st3
        simp only [List.dropLast_cons₂, List.map, deliver, hxs, Bool.false_eq_true,
          if_false, h1]
        exact h3)
      refine ⟨st2, ?_, ?_⟩
      · simp only [List.map, deliver, hxs, Bool.false_eq_true, if_false, h1]
        exact h2
      · rw [hc2, hcount, List.countP_cons _ m (m2 :: rest2)]
        by_cases hf : cfg.FILTER_KEYWORD = [] ∨ cfg.FILTER_KEYWORD <:+: decodedText g cfg m
        · simp only [hf, if_true, decide_True]
          omega
        · simp only [hf, if_false, decide_False, Bool.false_eq_true]
          omega

/-! ### The claims -/

/-- C1 (as amended): for every text p without unpaired surrogates, every 32-octet
key and every 16-octet IV that encrypt draws, encrypt returns and decrypt of its
result under the same key returns exactly p, given a cipher that meets
Gcm.Lawful. -/
theorem C1_round_trip_well_formed (g : Gcm) (hg : g.Lawful) (KEY iv : Bytes)
    (hk : KEY.length = 32) (hiv : iv.length = IV_LENGTH) (p : JSString)
    (hp : isWellFormed p = true) :
    ∃ e, encrypt g KEY iv p = some e ∧ decrypt g KEY e = p := by
  obtain ⟨e, h1, h2⟩ := decrypt_encrypt g hg KEY iv hk hiv p
  exact ⟨e, h1, by rw [h2, utf8Decode_utf8Encode p hp]⟩

/-- C1 at the text Hello, Hedera! under the stand-in cipher. -/
theorem C1_round_trip_witness :
    ∃ e, encrypt maskGcm (List.replicate 32 7) (List.replicate 16 9) (js "Hello, Hedera!") = some e
      ∧ decrypt maskGcm (List.replicate 32 7) e = js "Hello, Hedera!" :=
  C1_round_trip_well_formed maskGcm maskGcm_lawful (List.replicate 32 7) (List.replicate 16 9)
    (by decide) (by decide) (js "Hello, Hedera!") (by decide)

/-- C1 fails as stated: the one-unit text holding the unpaired surrogate U+D800 is
written as the octets of U+FFFD, as is the text holding U+FFFD, so under the
stand-in cipher decrypt returns U+FFFD for it; and no lawful cipher makes the
round trip hold for every text. -/
theorem C1_round_trip_counterexample :
    utf8Encode [unitOfNat 0xD800] = utf8Encode [unitOfNat 0xFFFD] ∧
    (∃ e, encrypt maskGcm (List.replicate 32 7) (List.replicate 16 9) [unitOfNat 0xD800] = some e
      ∧ decrypt maskGcm (List.replicate 32 7) e = [unitOfNat 0xFFFD]) ∧
    ¬ (∀ (g : Gcm), g.Lawful → ∀ (KEY iv : Bytes) (p : JSString), KEY.length = 32 →
        iv.length = IV_LENGTH → ∃ e, encrypt g KEY iv p = some e ∧ decrypt g KEY e = p) := by
  have h := decrypt_encrypt maskGcm maskGcm_lawful (List.replicate 32 7) (List.replicate 16 9)
    (by decide) (by decide) [unitOfNat 0xD800]
  have hd : utf8Decode (utf8Encode [unitOfNat 0xD800]) = [unitOfNat 0xFFFD] := by decide
  rw [hd] at h
  refine ⟨by decide, h, ?_⟩
  intro hall
  obtain ⟨e, h1, h2⟩ := h
  obtain ⟨e2, h3, h4⟩ := hall maskGcm maskGcm_lawful (List.replicate 32 7) (List.replicate 16 9)
    [unitOfNat 0xD800] (by decide) (by decide)
  rw [h1] at h3
  cases h3
  rw [h2] at h4
  exact absurd h4 (by decide)

/-- C2: for every key whose length is not 32 octets and every text p, encrypt
returns p unchanged whatever IV it would draw, and decrypt returns p unchanged;
neither throws. -/
theorem C2_invalid_key_pass_through (g : Gcm) (KEY : Bytes) (hk : KEY.length ≠ 32)
    (p : JSString) :
    (∀ iv, encrypt g KEY iv p = some p) ∧ decrypt g KEY p = p := by
  constructor
  · intro iv
    simp only [encrypt, hk, ne_eq, not_false_eq_true, if_true]
  · simp only [decrypt, hk, ne_eq, not_false_eq_true, if_true]

/-- C2 at the empty key, which is what an unset ENCRYPTION_KEY gives. -/
theorem C2_invalid_key_witness :
    ([] : Bytes).length ≠ 32 ∧
      (∀ iv, encrypt maskGcm [] iv (js "Hello, Hedera!") = some (js "Hello, Hedera!")) ∧
      decrypt maskGcm [] (js "Hello, Hedera!") = js "Hello, Hedera!" :=
  ⟨by decide, C2_invalid_key_pass_through maskGcm [] (by decide) (js "Hello, Hedera!")⟩

/-- C4: for every text p, 32-octet key and 16-octet IV, the cipher gives a
ciphertext and a 16-octet tag, and encrypt returns IV ++ tag ++ ciphertext
written as hexadecimal text, two characters an octet, which reads back as those
octets, at least 32 of them; and decrypt cuts it into the first 16 octets as IV,
the next 16 as tag and the rest as ciphertext, which it hands to the cipher. -/
theorem C4_envelope_layout (g : Gcm) (hg : g.Lawful) (KEY iv : Bytes)
    (hk : KEY.length = 32) (hiv : iv.length = IV_LENGTH) (p : JSString) :
    ∃ ct tag, g.cipher KEY iv (utf8Encode p) = some (ct, tag) ∧
      iv.length = 16 ∧ tag.length = 16 ∧
      encrypt g KEY iv p = some (hexEncode (iv ++ tag ++ ct)) ∧
      (hexEncode (iv ++ tag ++ ct)).length = 2 * (iv ++ tag ++ ct).length ∧
      hexDecode (hexEncode (iv ++ tag ++ ct)) = iv ++ tag ++ ct ∧
      32 ≤ (iv ++ tag ++ ct).length ∧
      splitEnvelope (hexEncode (iv ++ tag ++ ct)) = (iv, tag, ct) ∧
      decryptTry g KEY (hexEncode (iv ++ tag ++ ct))
        = (g.decipher KEY iv tag ct).map utf8Decode := by
  obtain ⟨ct, tag, hs, htag, _⟩ := hg KEY iv (utf8Encode p) hk hiv
  have hsplit := splitEnvelope_hexEncode iv tag ct hiv htag
  have happ : hexEncode (iv ++ tag ++ ct) = hexEncode iv ++ hexEncode tag ++ hexEncode ct := by
    rw [hexEncode_append, hexEncode_append]
  refine ⟨ct, tag, hs, hiv, htag, ?_, hexEncode_length _, hexDecode_hexEncode _, ?_, ?_, ?_⟩
  · simp only [encrypt, hk, hs, happ, ne_eq, not_true_eq_false, if_false]
  · simp only [List.length_append, hiv, htag, IV_LENGTH, AUTH_TAG_LENGTH]
    omega
  · rw [happ, hsplit]
  · simp only [decryptTry, happ, hsplit]
    cases g.decipher KEY iv tag ct <;> rfl

/-- C4 at the text Hello, Hedera! under the stand-in cipher. -/
theorem C4_envelope_witness :
    ∃ ct tag, maskGcm.cipher (List.replicate 32 7) (List.replicate 16 9)
        (utf8Encode (js "Hello, Hedera!")) = some (ct, tag) ∧
      (List.replicate 16 (9 : Byte)).length = 16 ∧ tag.length = 16 ∧
      encrypt maskGcm (List.replicate 32 7) (List.replicate 16 9) (js "Hello, Hedera!")
        = some (hexEncode (List.replicate 16 9 ++ tag ++ ct)) ∧
      (hexEncode (List.replicate 16 9 ++ tag ++ ct)).length
        = 2 * (List.replicate 16 (9 : Byte) ++ tag ++ ct).length ∧
      hexDecode (hexEncode (List.replicate 16 9 ++ tag ++ ct)) = List.replicate 16 9 ++ tag ++ ct ∧
      32 ≤ (List.replicate 16 (9 : Byte) ++ tag ++ ct).length ∧
      splitEnvelope (hexEncode (List.replicate 16 9 ++ tag ++ ct))
        = (List.replicate 16 9, tag, ct) ∧
      decryptTry maskGcm (List.replicate 32 7) (hexEncode (List.replicate 16 9 ++ tag ++ ct))
        = (maskGcm.decipher (List.replicate 32 7) (List.replicate 16 9) tag ct).map utf8Decode :=
  C4_envelope_layout maskGcm maskGcm_lawful (List.replicate 32 7) (List.replicate 16 9)
    (by decide) (by decide) (js "Hello, Hedera!")

/-- C5: for every filter keyword f and every message the callback processes (one
for which line 146 returns a timestamp), where the decoded text is the contents
read as UTF-8, decrypted when encryption is on: when f is empty or occurs in the
decoded text the message is counted and its line, with that text, is written,
and otherwise the counter, the exit status and the received lines stay as they
were; hence over messages all processed before the exit the counter is the
number of messages that pass. With the three texts of the script and keyword
Hedera the counter ends at 1; with encryption on, the envelope of a text holding
the keyword is counted and a clear text holding it is not; and a discarded
message under an invalid key leaves the counter at 0. -/
theorem C5_filter_correctness (g : Gcm) (cfg : Config) :
    (∀ (st : Subscriber) (m : TopicMessage) (ts text : JSString),
      formatTimestamp (.timestamp m.consensusTimestamp) = some ts →
      text = (if cfg.USE_ENCRYPTION then decrypt g cfg.KEY (utf8Decode m.contents)
        else utf8Decode m.contents) →
      ((cfg.FILTER_KEYWORD = [] ∨ cfg.FILTER_KEYWORD <:+: text) →
        ∃ st1, onMessage g cfg st m = some st1 ∧ st1.receiveCount = st.receiveCount + 1 ∧
          Line.received (st.receiveCount + 1) text ts ∈ st1.console) ∧
      (¬ (cfg.FILTER_KEYWORD = [] ∨ cfg.FILTER_KEYWORD <:+: text) →
        ∃ st1, onMessage g cfg st m = some st1 ∧ st1.receiveCount = st.receiveCount ∧
          st1.exitCode = st.exitCode ∧ st1.closed = st.closed ∧
          ∀ i x t, Line.received i x t ∈ st1.console → Line.received i x t ∈ st.console)) ∧
    (∀ ms : List TopicMessage,
      (∀ m ∈ ms, isValidTime m.consensusTimestamp.toDate = true) →
      (∀ st1, deliver g cfg Subscriber.init (ms.dropLast.map Inbound.message) = some st1 →
        st1.exitCode = none) →
      ∃ st1, deliver g cfg Subscriber.init (ms.map Inbound.message) = some st1 ∧
        st1.receiveCount = ms.countP (fun m =>
          decide (cfg.FILTER_KEYWORD = [] ∨ cfg.FILTER_KEYWORD <:+:
            (if cfg.USE_ENCRYPTION then decrypt g cfg.KEY (utf8Decode m.contents)
              else utf8Decode m.contents)))) ∧
    deliver maskGcm ⟨false, js "Hedera",
        [js "Hello, Hedera!", js "Learning HCS", js "Message 3"], []⟩ Subscriber.init
        [Inbound.message (textMessage (js "Hello, Hedera!") ⟨1700000000000⟩),
          Inbound.message (textMessage (js "Learning HCS") ⟨1700000001000⟩),
          Inbound.message (textMessage (js "Message 3") ⟨1700000002000⟩)]
      = some ⟨1, [Line.received 1 (js "Hello, Hedera!") (js "2023-11-14 22:13:20")],
          false, none⟩ ∧
    deliver maskGcm ⟨true, js "Hedera",
        [js "Hello, Hedera!", js "Learning HCS", js "Message 3"], List.replicate 32 7⟩
        Subscriber.init
        [Inbound.message (textMessage
            ((encrypt maskGcm (List.replicate 32 7) (List.replicate 16 9)
              (js "Hello, Hedera!")).getD []) ⟨1700000000000⟩),
          Inbound.message (textMessage (js "Hedera in clear") ⟨1700000001000⟩)]
      = some ⟨1, [Line.received 1 (js "Hello, Hedera!") (js "2023-11-14 22:13:20")],
          false, none⟩ ∧
    onMessage maskGcm ⟨true, js "Hedera", [js "Hello, Hedera!"], []⟩ Subscriber.init
        (textMessage (js "Learning HCS") ⟨1700000000000⟩)
      = some ⟨0, [Line.error (js "Invalid ENCRYPTION_KEY. Cannot decrypt.")], false, none⟩ := by
  refine ⟨fun st m ts text hts htext => ⟨fun hf => ?_, fun hf => ?_⟩, fun ms hv hlive => ?_,
    by decide, by decide, by decide⟩
  · have hd : decodedText g cfg m = text := htext.symm
    rw [← hd] at hf ⊢
    refine ⟨_, onMessage_accepted g cfg st m ts hts hf, ?_, ?_⟩
    · split <;> rfl
    · split <;> simp
  · have hd : decodedText g cfg m = text := htext.symm
    rw [← hd] at hf
    refine ⟨_, onMessage_rejected g cfg st m ts hts hf, rfl, rfl, rfl, ?_⟩
    intro i x t hmem
    exact received_mem_consoleDecoded cfg st i x t hmem
  · obtain ⟨st1, h1, h2⟩ := deliver_count g cfg ms Subscriber.init hv rfl hlive
    refine ⟨st1, h1, ?_⟩
    rw [h2]
    simp [Subscriber.init, decodedText]

/-- C6, the code at an empty list of messages to send (N = 0): one delivered
message takes the counter to 1, above N, a line numbered 1 is written, the
client is not closed and the script has not exited, because the test of line 163
compares the counter with N only after counting. With the three messages of the
script the same callback stops at the third: the client is closed, the status is
0 and a fourth delivered message is not processed. -/
theorem C6_empty_list_never_exits :
    (⟨false, js "", [], []⟩ : Config).MESSAGES_TO_SEND.length = 0 ∧
    deliver maskGcm ⟨false, js "", [], []⟩ Subscriber.init
        [Inbound.message (textMessage (js "Hello, Hedera!") ⟨1700000000000⟩)]
      = some ⟨1, [Line.received 1 (js "Hello, Hedera!") (js "2023-11-14 22:13:20")],
          false, none⟩ ∧
    deliver maskGcm (defaultConfig []) Subscriber.init
        [Inbound.message (textMessage (js "Hello, Hedera!") ⟨1700000000000⟩),
          Inbound.message (textMessage (js "Learning HCS") ⟨1700000001000⟩),
          Inbound.message (textMessage (js "Message 3") ⟨1700000002000⟩),
          Inbound.message (textMessage (js "Message 4") ⟨1700000003000⟩)]
      = some ⟨3, [Line.received 1 (js "Hello, Hedera!") (js "2023-11-14 22:13:20"),
            Line.received 2 (js "Learning HCS") (js "2023-11-14 22:13:21"),
            Line.received 3 (js "Message 3") (js "2023-11-14 22:13:22"),
            Line.info (js "\nReceived all messages. Closing connection.")],
          true, some 0⟩ := by
  exact ⟨rfl, by decide, by decide⟩

/-- C7, the code at the script's own configuration, in a world where every call
on the network succeeds: every pass through the loop body throws at
formatTimestamp(new Date()) before anything is submitted, so main submits no
message and writes no line of a sent message, and the catch writes its error
line. -/
theorem C7_publish_loop_throws :
    (∀ (g : Gcm) (cfg : Config) (w : World) (topicId i : Nat) (text : JSString)
        (rest : List JSString), publishLoop g cfg w topicId i (text :: rest) = ([], true)) ∧
    (defaultConfig []).MESSAGES_TO_SEND.length = 3 ∧
    submitted (main maskGcm (defaultConfig []) someEnv calmWorld) = [] ∧
    sentLines (main maskGcm (defaultConfig []) someEnv calmWorld) = [] ∧
    Action.console (Line.error (js "An error occurred:"))
      ∈ main maskGcm (defaultConfig []) someEnv calmWorld := by
  refine ⟨fun g cfg w topicId i text rest => rfl, by decide, by decide, by decide, by decide⟩

/-- C8, the code at the timestamp whose Date is 10000-01-01T00:00:00Z, a valid
Date: the ISO string begins with a sign and a six-digit year, and
formatTimestamp returns the 19 characters "+010000-01-01 00:00", which is no
text YYYY-MM-DD HH:MM:SS; one millisecond earlier it returns
"9999-12-31 23:59:59". -/
theorem C8_year_10000_text :
    isValidTime 253402300800000 = true ∧
    formatTimestamp (.timestamp ⟨253402300799999⟩) = some (js "9999-12-31 23:59:59") ∧
    formatTimestamp (.timestamp ⟨253402300800000⟩) = some (js "+010000-01-01 00:00") ∧
    ¬ (∃ Y M D h m s : Nat,
        formatTimestamp (.timestamp ⟨253402300800000⟩) = some (dateTimeText Y M D h m s)) := by
  have e : formatTimestamp (.timestamp ⟨253402300800000⟩) = some (js "+010000-01-01 00:00") := by
    decide
  refine ⟨by decide, by decide, e, ?_⟩
  rintro ⟨Y, M, D, h, m, s, h1⟩
  rw [e] at h1
  have h0 : (js "+010000-01-01 00:00").head? = some (unitOfNat 43) := by decide
  have h2 := congrArg List.head? (Option.some.inj h1)
  rw [h0, dateTimeText_head] at h2
  have h3 := congrArg Fin.val (Option.some.inj h2)
  simp only [unitOfNat_val] at h3
  omega

/-- C9: when the account identifier or the private key is not set or is empty,
main writes its banner and the error line and does nothing else: no client is
made, no topic created, no subscription opened and no message submitted. -/
theorem C9_missing_credentials (g : Gcm) (cfg : Config) (env : Env) (w : World)
    (h : env.HEDERA_ACCOUNT_ID = none ∨ env.HEDERA_ACCOUNT_ID = some [] ∨
      env.HEDERA_PRIVATE_KEY = none ∨ env.HEDERA_PRIVATE_KEY = some []) :
    main g cfg env w =
        [Action.console (Line.info (js "--- Simple Hedera Messaging Service ---")),
          Action.console (Line.error
            (js "HEDERA_ACCOUNT_ID and HEDERA_PRIVATE_KEY must be set in .env file"))] ∧
      (∀ a ∈ main g cfg env w, a.isNetwork = false) ∧
      submitted (main g cfg env w) = [] := by
  have hf : (falsy env.HEDERA_ACCOUNT_ID || falsy env.HEDERA_PRIVATE_KEY) = true := by
    rcases h with h | h | h | h <;> simp [h, falsy]
  have hm : main g cfg env w =
      [Action.console (Line.info (js "--- Simple Hedera Messaging Service ---")),
        Action.console (Line.error
          (js "HEDERA_ACCOUNT_ID and HEDERA_PRIVATE_KEY must be set in .env file"))] := by
    simp only [main, hf, if_true]
  refine ⟨hm, ?_, ?_⟩
  · intro a ha
    rw [hm] at ha
    simp only [List.mem_cons, List.mem_singleton, List.not_mem_nil, or_false] at ha
    rcases ha with ha | ha <;> rw [ha] <;> rfl
  · rw [hm]; rfl

/-- C9 at an environment without HEDERA_ACCOUNT_ID. -/
theorem C9_missing_credentials_witness :
    main maskGcm (defaultConfig []) ⟨none, some (js "302e")⟩ calmWorld =
        [Action.console (Line.info (js "--- Simple Hedera Messaging Service ---")),
          Action.console (Line.error
            (js "HEDERA_ACCOUNT_ID and HEDERA_PRIVATE_KEY must be set in .env file"))] ∧
      (∀ a ∈ main maskGcm (defaultConfig []) ⟨none, some (js "302e")⟩ calmWorld,
        a.isNetwork = false) ∧
      submitted (main maskGcm (defaultConfig []) ⟨none, some (js "302e")⟩ calmWorld) = [] :=
  C9_missing_credentials maskGcm (defaultConfig []) ⟨none, some (js "302e")⟩ calmWorld
    (Or.inl rfl)

/-- C10: with encryption on and a 32-octet key, for a message for which the try
block of decrypt throws and line 146 returns a timestamp, decrypt returns the
failure text; when the filter keyword is empty or occurs in that text, the
callback returns with the counter one higher and the line of the failure text
written, and when that count is the number of messages to send the client is
closed and the script exits with status 0. -/
theorem C10_failed_decryption_counted (g : Gcm) (cfg : Config) (st : Subscriber)
    (m : TopicMessage) (ts : JSString) (hEnc : cfg.USE_ENCRYPTION = true)
    (hKey : cfg.KEY.length = 32)
    (hFail : decryptTry g cfg.KEY (utf8Decode m.contents) = none)
    (hts : formatTimestamp (.timestamp m.consensusTimestamp) = some ts)
    (hF : cfg.FILTER_KEYWORD = [] ∨ cfg.FILTER_KEYWORD <:+: decryptionFailed) :
    decrypt g cfg.KEY (utf8Decode m.contents) = decryptionFailed ∧
      ∃ st1, onMessage g cfg st m = some st1 ∧
        st1.receiveCount = st.receiveCount + 1 ∧
        Line.received (st.receiveCount + 1) decryptionFailed ts ∈ st1.console ∧
        (st.receiveCount + 1 = cfg.MESSAGES_TO_SEND.length →
          st1.exitCode = some 0 ∧ st1.closed = true) := by
  have hd : decrypt g cfg.KEY (utf8Decode m.contents) = decryptionFailed := by
    simp only [decrypt, hKey, ne_eq, not_true_eq_false, if_false, hFail]
  have ht : decodedText g cfg m = decryptionFailed := by
    simp only [decodedText, hEnc, if_true, hd]
  refine ⟨hd, ?_⟩
  have hs := onMessage_accepted g cfg st m ts hts (by rw [ht]; exact hF)
  rw [ht] at hs
  refine ⟨_, hs, ?_, ?_, ?_⟩
  · split <;> rfl
  · split <;> simp
  · intro he
    simp only [he, if_true, and_self]

/-- C10 at a message that is not an envelope, with one message to send. -/
theorem C10_failed_decryption_witness :
    decrypt maskGcm (List.replicate 32 7) (utf8Decode (utf8Encode (js "Hello, Hedera!")))
        = decryptionFailed ∧
      ∃ st1, onMessage maskGcm ⟨true, js "", [js "Hello, Hedera!"], List.replicate 32 7⟩
          Subscriber.init (textMessage (js "Hello, Hedera!") ⟨1700000000000⟩) = some st1 ∧
        st1.receiveCount = Subscriber.init.receiveCount + 1 ∧
        Line.received (Subscriber.init.receiveCount + 1) decryptionFailed
          (js "2023-11-14 22:13:20") ∈ st1.console ∧
        (Subscriber.init.receiveCount + 1 = [js "Hello, Hedera!"].length →
          st1.exitCode = some 0 ∧ st1.closed = true) :=
  C10_failed_decryption_counted maskGcm ⟨true, js "", [js "Hello, Hedera!"], List.replicate 32 7⟩
    Subscriber.init (textMessage (js "Hello, Hedera!") ⟨1700000000000⟩)
    (js "2023-11-14 22:13:20") rfl (by decide) (by decide) (by decide) (Or.inl rfl)

end HcsMessaging
